import Mathlib

/-!
Shallow embedding of the GitBlog content-classification and rendering
pipeline (`blog_generator.py`, `main.py`): label ordering, section
rendering with the anchor-collapse rule, the TODO checkbox line
classifier, the friend-link key-value block processing, issue
selection, summary truncation, filename sanitization and the RSS feed
projection.  Timestamps are modelled as natural numbers (the code only
compares and formats them); the external markdown/markup converters
are passed in as opaque function parameters, matching the spec's
treatment of them as black boxes.  Python's `sorted` (a stable sort)
is modelled by `List.insertionSort`, which is likewise stable for a
total preorder.
-/

namespace Blog

/-- Label record: a name plus an optional human description
(`label.description` is `None`, `""`, or non-empty in the source). -/
structure Label where
  name : String
  description : Option String
deriving DecidableEq, Repr

/-- Reaction on a comment: kind string and reacting user login. -/
structure Reaction where
  content : String
  user : String
deriving DecidableEq, Repr

/-- Comment on an issue: optional body, author login, creation time,
reactions. -/
structure Comment where
  body : Option String
  user : String
  created_at : Nat
  reactions : List Reaction
deriving DecidableEq, Repr

/-- Issue record as consumed by the pipeline.  `pull_request` models
the truthiness of the `issue.pull_request` attribute. -/
structure Issue where
  number : Nat
  title : String
  html_url : String
  body : Option String
  user : String
  created_at : Nat
  updated_at : Nat
  labels : List Label
  pull_request : Bool
  comments : List Comment
deriving DecidableEq, Repr

/-- `ANCHOR_NUMBER = 5` from `blog_generator.py`. -/
def ANCHOR_NUMBER : Nat := 5

/-- `MAX_SUMMARY_LINES = 3` from `blog_generator.py`. -/
def MAX_SUMMARY_LINES : Nat := 3

/-- `MAX_SUMMARY_LENGTH = 50` from `blog_generator.py`. -/
def MAX_SUMMARY_LENGTH : Nat := 50

/-- `RECENT_ISSUE_LIMIT = 5` from `blog_generator.py`. -/
def RECENT_ISSUE_LIMIT : Nat := 5

/-- `is_me(issue, me)`: the issue's author login equals the owner login. -/
def is_me (issue : Issue) (me : String) : Bool :=
  issue.user == me

/-- Sort key used in `add_md_label`:
`(x.description is None, x.description == "", x.description, x.name)`.
The third Python component is the raw description; it is compared only
when the first two components tie, in which case either both
descriptions are equal to `None` or both are strings, so replacing
`None` by `""` in that slot is extensionally faithful. -/
def labelKey (l : Label) : Lex (Bool × Lex (Bool × Lex (String × String))) :=
  toLex (l.description.isNone,
    toLex (l.description == some "",
      toLex (l.description.getD "", l.name)))

/-- Python tuple `<=` on `labelKey` (lexicographic, `False < True`). -/
def labelLE (a b : Label) : Prop :=
  labelKey a ≤ labelKey b

instance : DecidableRel labelLE := fun a b =>
  inferInstanceAs (Decidable (labelKey a ≤ labelKey b))

instance : IsTotal Label labelLE :=
  ⟨fun a b => le_total (labelKey a) (labelKey b)⟩

instance : IsTrans Label labelLE :=
  ⟨fun _ _ _ h1 h2 => le_trans h1 h2⟩

/-- `sorted(labels, key=...)` from `add_md_label`. -/
def ordered_labels (labels : List Label) : List Label :=
  labels.insertionSort labelLE

/-- Group rank of a label: 0 = non-empty description, 1 = empty
description, 2 = absent description. -/
def descRank (l : Label) : Nat :=
  match l.description with
  | none => 2
  | some d => if d = "" then 1 else 0

theorem descRank_le_two (l : Label) : descRank l ≤ 2 := by
  cases h : l.description with
  | none => simp [descRank, h]
  | some d => by_cases hd : d = "" <;> simp [descRank, h, hd]

theorem descRank_of_none {l : Label} (h : l.description = none) :
    descRank l = 2 := by
  simp [descRank, h]

theorem descRank_of_empty {l : Label} (h : l.description = some "") :
    descRank l = 1 := by
  simp [descRank, h]

theorem descRank_of_nonempty {l : Label} {d : String}
    (h : l.description = some d) (hd : d ≠ "") : descRank l = 0 := by
  simp [descRank, h, hd]

theorem labelLE_unfold {a b : Label} (h : labelLE a b) :
    a.description.isNone < b.description.isNone
    ∨ (a.description.isNone = b.description.isNone ∧
       ((a.description == some "") < (b.description == some "")
        ∨ ((a.description == some "") = (b.description == some "") ∧
           (a.description.getD "" < b.description.getD ""
            ∨ (a.description.getD "" = b.description.getD ""
               ∧ a.name ≤ b.name))))) := by
  unfold labelLE labelKey at h
  rcases (Prod.Lex.le_iff _ _).mp h with h1 | ⟨h1, h2⟩
  · exact Or.inl h1
  · refine Or.inr ⟨h1, ?_⟩
    rcases (Prod.Lex.le_iff _ _).mp h2 with h3 | ⟨h3, h4⟩
    · exact Or.inl h3
    · exact Or.inr ⟨h3, (Prod.Lex.le_iff _ _).mp h4⟩

theorem labelLE_descRank {a b : Label} (h : labelLE a b) :
    descRank a ≤ descRank b := by
  rcases labelLE_unfold h with h1 | ⟨h1, h2⟩
  · rcases Bool.lt_iff.mp h1 with ⟨_, hb⟩
    rw [descRank_of_none (Option.isNone_iff_eq_none.mp hb)]
    exact descRank_le_two a
  · by_cases hna : a.description = none
    · have hisa : a.description.isNone = true := by simp [hna]
      have hnb : b.description = none :=
        Option.isNone_iff_eq_none.mp (h1 ▸ hisa)
      rw [descRank_of_none hna, descRank_of_none hnb]
    · obtain ⟨d, hd⟩ := Option.ne_none_iff_exists'.mp hna
      rcases h2 with h3 | ⟨h3, _⟩
      · rcases Bool.lt_iff.mp h3 with ⟨ha2, hb2⟩
        have hbe : b.description = some "" := beq_iff_eq.mp hb2
        have hdne : d ≠ "" := by
          intro hcon
          rw [hd, hcon] at ha2
          simp at ha2
        rw [descRank_of_nonempty hd hdne, descRank_of_empty hbe]
        omega
      · have hnb : b.description ≠ none := by
          intro hbn
          rw [hd, hbn] at h1
          simp at h1
        obtain ⟨e, he⟩ := Option.ne_none_iff_exists'.mp hnb
        by_cases hdd : d = ""
        · have hbeq : (b.description == some "") = true := by
            rw [← h3, hd, hdd]
            simp
          have hee : b.description = some "" := beq_iff_eq.mp hbeq
          rw [descRank_of_empty (by rw [hd, hdd]), descRank_of_empty hee]
        · have hbne : (b.description == some "") = false := by
            rw [← h3, hd]
            simp [hdd]
          have hene : e ≠ "" := by
            intro hcon
            rw [he, hcon] at hbne
            simp at hbne
          rw [descRank_of_nonempty hd hdd, descRank_of_nonempty he hene]

theorem labelLE_desc_asc {a b : Label} (h : labelLE a b)
    (_ha : descRank a = 0) (hb : descRank b = 0) :
    a.description.getD "" ≤ b.description.getD "" := by
  rcases labelLE_unfold h with h1 | ⟨_, h2⟩
  · exfalso
    rcases Bool.lt_iff.mp h1 with ⟨_, hbn⟩
    rw [descRank_of_none (Option.isNone_iff_eq_none.mp hbn)] at hb
    omega
  · rcases h2 with h3 | ⟨_, h4⟩
    · exfalso
      rcases Bool.lt_iff.mp h3 with ⟨_, hb2⟩
      rw [descRank_of_empty (beq_iff_eq.mp hb2)] at hb
      omega
    · rcases h4 with h5 | ⟨h5, _⟩
      · exact le_of_lt h5
      · exact le_of_eq h5

theorem labelLE_name_empty {a b : Label} (h : labelLE a b)
    (ha : a.description = some "") (hb : b.description = some "") :
    a.name ≤ b.name := by
  rcases labelLE_unfold h with h1 | ⟨_, h2⟩
  · exfalso
    rw [ha, hb] at h1
    simp [Bool.lt_iff] at h1
  · rcases h2 with h3 | ⟨_, h4⟩
    · exfalso
      rw [ha, hb] at h3
      simp [Bool.lt_iff] at h3
    · rcases h4 with h5 | ⟨_, h6⟩
      · exfalso
        rw [ha, hb] at h5
        simp at h5
      · exact h6

theorem labelLE_name_absent {a b : Label} (h : labelLE a b)
    (ha : a.description = none) (hb : b.description = none) :
    a.name ≤ b.name := by
  rcases labelLE_unfold h with h1 | ⟨_, h2⟩
  · exfalso
    rw [ha, hb] at h1
    simp [Bool.lt_iff] at h1
  · rcases h2 with h3 | ⟨_, h4⟩
    · exfalso
      rw [ha, hb] at h3
      simp [Bool.lt_iff] at h3
    · rcases h4 with h5 | ⟨_, h6⟩
      · exfalso
        rw [ha, hb] at h5
        simp at h5
      · exact h6

/-- Label from the spec example: name `Zeta`, empty description. -/
def zetaLabel : Label := { name := "Zeta", description := some "" }

/-- Label from the spec example: name `Alpha`, description `1-intro`. -/
def alphaLabel : Label := { name := "Alpha", description := some "1-intro" }

/-- Label from the spec example: name `Beta`, absent description. -/
def betaLabel : Label := { name := "Beta", description := none }

/-- C1: label ordering for label-grouped sections is the total order
given by the tuple (description is absent, description is empty,
description value, name): the sorted output is a permutation of the
input, pairwise ordered by that tuple comparison; labels with
non-empty description come first (ascending description), then
empty-description labels by name, then absent-description labels by
name; the comparison is total (never fails on any mix of
absent/empty/non-empty descriptions), and the example
`[Zeta/"", Alpha/"1-intro", Beta/None]` orders as
`[Alpha, Zeta, Beta]`. -/
theorem c1_label_ordering (ls : List Label) :
    (ordered_labels ls).Perm ls
    ∧ List.Pairwise labelLE (ordered_labels ls)
    ∧ (∀ a b : Label, labelLE a b ∨ labelLE b a)
    ∧ List.Pairwise (fun a b => descRank a ≤ descRank b) (ordered_labels ls)
    ∧ List.Pairwise (fun a b => descRank a = 0 → descRank b = 0 →
        a.description.getD "" ≤ b.description.getD "") (ordered_labels ls)
    ∧ List.Pairwise (fun a b => a.description = some "" →
        b.description = some "" → a.name ≤ b.name) (ordered_labels ls)
    ∧ List.Pairwise (fun a b => a.description = none →
        b.description = none → a.name ≤ b.name) (ordered_labels ls)
    ∧ (ordered_labels [zetaLabel, alphaLabel, betaLabel]).map Label.name
        = ["Alpha", "Zeta", "Beta"] := by
  have hsorted : List.Pairwise labelLE (ordered_labels ls) :=
    List.sorted_insertionSort labelLE ls
  refine ⟨List.perm_insertionSort labelLE ls, hsorted,
    fun a b => total_of labelLE a b,
    hsorted.imp (fun h => labelLE_descRank h),
    hsorted.imp (fun h ha hb => labelLE_desc_asc h ha hb),
    hsorted.imp (fun h ha hb => labelLE_name_empty h ha hb),
    hsorted.imp (fun h ha hb => labelLE_name_absent h ha hb),
    by decide⟩

/-- C1 witness: the concrete spec example evaluated through the
theorem itself. -/
theorem c1_label_ordering_witness :
    (ordered_labels [zetaLabel, alphaLabel, betaLabel]).map Label.name
      = ["Alpha", "Zeta", "Beta"] :=
  (c1_label_ordering []).2.2.2.2.2.2.2

/-- Recency comparison used by every `sorted(..., key=lambda x:
x.updated_at, reverse=True)` call: `a` may precede `b` when `b`'s
update time is at most `a`'s. -/
def updatedDesc (a b : Issue) : Prop :=
  b.updated_at ≤ a.updated_at

instance : DecidableRel updatedDesc := fun a b =>
  inferInstanceAs (Decidable (b.updated_at ≤ a.updated_at))

instance : IsTotal Issue updatedDesc :=
  ⟨fun a b => le_total b.updated_at a.updated_at⟩

instance : IsTrans Issue updatedDesc :=
  ⟨fun _ _ _ h1 h2 => le_trans h2 h1⟩

/-- `sorted(issues, key=lambda x: x.updated_at, reverse=True)`. -/
def sortByUpdatedDesc (issues : List Issue) : List Issue :=
  issues.insertionSort updatedDesc

theorem sortByUpdatedDesc_sorted (issues : List Issue) :
    List.Pairwise updatedDesc (sortByUpdatedDesc issues) :=
  List.sorted_insertionSort updatedDesc issues

theorem sortByUpdatedDesc_perm (issues : List Issue) :
    (sortByUpdatedDesc issues).Perm issues :=
  List.perm_insertionSort updatedDesc issues

/-- Whitespace test backing Python's default `str.strip()` and
`str.isspace()`. -/
def pySpace (c : Char) : Bool :=
  c.isWhitespace

/-- Both-ends whitespace strip on character lists. -/
def stripList (l : List Char) : List Char :=
  ((l.dropWhile pySpace).reverse.dropWhile pySpace).reverse

/-- Python `str.strip()`.  Character-list implementation so that
concrete inputs evaluate inside the kernel. -/
def pyStrip (s : String) : String :=
  String.mk (stripList s.toList)

/-- Split a character list on a separator character, keeping empty
segments, as Python `str.split(sep)` does. -/
def splitOnChar (sep : Char) : List Char → List (List Char)
  | [] => [[]]
  | c :: cs =>
    if c = sep then [] :: splitOnChar sep cs
    else
      match splitOnChar sep cs with
      | [] => [[c]]
      | t :: ts => (c :: t) :: ts

/-- Python `s.split(sep)` for a one-character separator. -/
def pySplit (s : String) (sep : Char) : List String :=
  (splitOnChar sep s.toList).map String.mk

/-- Python `str.splitlines()` restricted to `\n` line terminators (the
only terminator occurring in the modelled bodies): like split on `\n`
but empty input gives no lines and a trailing terminator adds none. -/
def pySplitlines (s : String) : List String :=
  if s = "" then []
  else
    let parts := pySplit s '\n'
    if parts.getLast? == some "" then parts.dropLast else parts

/-- Python `s.startswith(pre)`. -/
def pyStartsWith (s pre : String) : Bool :=
  pre.toList.isPrefixOf s.toList

/-- `format_time`: `str(time)[:10]` from `blog_generator.py`, on the
numeric time model. -/
def format_time (time : Nat) : String :=
  String.mk ((toString time).toList.take 10)

/-- Per-summary-line processing from `add_issue_info`: strip leading
heading markers (`lstrip('#').strip()` when the line starts with `#`),
then truncate to the first `MAX_SUMMARY_LENGTH` characters plus `...`
when longer. -/
def processSummaryLine (line : String) : String :=
  let l1 := if pyStartsWith line "#"
    then pyStrip (String.mk (line.toList.dropWhile (fun c => c = '#')))
    else line
  if MAX_SUMMARY_LENGTH < l1.toList.length
    then String.mk (l1.toList.take MAX_SUMMARY_LENGTH) ++ "..."
    else l1

/-- Summary-line computation of `add_issue_info`
(`blog_generator.py`): guard `if issue.body:`, then
`issue.body.split('\n')[:MAX_SUMMARY_LINES]`, then keep the stripped
non-blank lines, then process each line. -/
def summarize (body : Option String) : List String :=
  match body with
  | none => []
  | some b =>
    if b = "" then []
    else
      ((((pySplit b '\n').take MAX_SUMMARY_LINES).map pyStrip).filter
        (fun l => l ≠ "")).map processSummaryLine

/-- Summarization as the claim words it: the first `MAX_SUMMARY_LINES`
non-blank lines of the whole body, each heading-stripped and
truncated. -/
def claimSummarize (body : Option String) : List String :=
  match body with
  | none => []
  | some b =>
    ((((pySplit b '\n').map pyStrip).filter
      (fun l => l ≠ "")).take MAX_SUMMARY_LINES).map processSummaryLine

/-- Summarization as amended: the non-blank lines among the first
`MAX_SUMMARY_LINES` lines of the body, each heading-stripped and
truncated. -/
def amendedSummarize (body : Option String) : List String :=
  match body with
  | none => []
  | some b =>
    ((((pySplit b '\n').take MAX_SUMMARY_LINES).map pyStrip).filter
      (fun l => l ≠ "")).map processSummaryLine

/-- Lines written by `add_issue_info` (`blog_generator.py`): the
title/link/update-time bullet, then the indented summary lines and a
separating blank line when the summary is non-empty. -/
def add_issue_info (issue : Issue) : List String :=
  let head := "- [" ++ issue.title ++ "](" ++ issue.html_url ++ ")--"
    ++ format_time issue.updated_at ++ "\n"
  let sls := summarize issue.body
  head :: (if sls.isEmpty then []
    else sls.map (fun l => "  - " ++ l ++ "\n") ++ ["\n"])

/-- C5 counterexample: on the body `"a\n\nb\nc"` the code keeps only
the non-blank lines among the first 3 lines (`["a", "b"]`), not the
first 3 non-blank lines of the body (`["a", "b", "c"]`) as the claim
states. -/
theorem c5_summary_counterexample :
    summarize (some "a\n\nb\nc") = ["a", "b"]
    ∧ claimSummarize (some "a\n\nb\nc") = ["a", "b", "c"]
    ∧ summarize (some "a\n\nb\nc") ≠ claimSummarize (some "a\n\nb\nc") := by
  decide

/-- C5 as amended: the rendered summary consists of the non-blank
lines among the first `MAX_SUMMARY_LINES` (3) lines of the body, with
leading heading markers stripped; any summary line exceeding
`MAX_SUMMARY_LENGTH` (50) characters is truncated to its first 50
characters plus a 3-character ellipsis; an absent or entirely blank
body produces no summary lines (witnessed by the 60-character
truncation example). -/
theorem c5_summary_amended :
    (∀ body : Option String, summarize body = amendedSummarize body)
    ∧ summarize none = []
    ∧ (∀ b : String, (∀ l ∈ pySplit b '\n', pyStrip l = "") →
        summarize (some b) = [])
    ∧ summarize (some (String.mk (List.replicate 60 'a')))
        = [String.mk (List.replicate 50 'a') ++ "..."] := by
  refine ⟨?_, rfl, ?_, by decide⟩
  · intro body
    cases body with
    | none => rfl
    | some b =>
      by_cases hb : b = ""
      · subst hb
        decide
      · simp [summarize, amendedSummarize, hb]
  · intro b h
    unfold summarize
    by_cases hb : b = ""
    · simp [hb]
    · simp only [hb, if_false]
      have hfil : (((pySplit b '\n').take MAX_SUMMARY_LINES).map pyStrip).filter
          (fun l => l ≠ "") = [] := by
        rw [List.filter_eq_nil_iff]
        intro a ha
        obtain ⟨l0, hl0, rfl⟩ := List.mem_map.mp ha
        have : l0 ∈ pySplit b '\n' := List.mem_of_mem_take hl0
        simp [h l0 this]
      rw [hfil]
      rfl

/-- C5 witness: the blank-body conjunct of the amended theorem applied
at a concrete whitespace-only body. -/
theorem c5_summary_amended_witness :
    summarize (some " \n\t\n ") = [] :=
  c5_summary_amended.2.2.1 " \n\t\n " (by decide)

/-- The two lines written when the collapsible block opens in
`add_md_label`. -/
def details_open : List String :=
  ["<details><summary>显示更多</summary>\n", "\n"]

/-- The two lines written when the collapsible block closes in
`add_md_label`. -/
def details_close : List String :=
  ["</details>\n", "\n"]

/-- Inner loop of `add_md_label` over one label's sorted issues:
counter `i` counts rendered (owner-authored) items; when `i` hits
`ANCHOR_NUMBER` just before an item, the collapsible block opens.
Returns the written lines together with the final counter. -/
def labelLoop (me : String) : Nat → List Issue → List String × Nat
  | i, [] => ([], i)
  | i, issue :: rest =>
    if is_me issue me then
      let r := labelLoop me (i + 1) rest
      ((if i = ANCHOR_NUMBER then details_open else [])
        ++ add_issue_info issue ++ r.1, r.2)
    else labelLoop me i rest

/-- One label group of `add_md_label` (`blog_generator.py` lines
299-322): heading only when the label has matching issues, then the
counted loop, then the closing block when more than `ANCHOR_NUMBER`
items were rendered. -/
def add_md_label_section (me : String) (label : Label)
    (issues : List Issue) : List String :=
  if issues.isEmpty then []
  else
    let r := labelLoop me 0 (sortByUpdatedDesc issues)
    ("## " ++ label.name ++ "\n")
      :: r.1 ++ (if ANCHOR_NUMBER < r.2 then details_close else [])

/-- Closed form of `labelLoop` on the owner-filtered issue list. -/
def labelLoopSpec (i : Nat) : List Issue → List String
  | [] => []
  | x :: xs =>
    (if i = ANCHOR_NUMBER then details_open else [])
      ++ add_issue_info x ++ labelLoopSpec (i + 1) xs

theorem labelLoop_eq (me : String) (issues : List Issue) : ∀ i : Nat,
    labelLoop me i issues
      = (labelLoopSpec i (issues.filter (fun x => is_me x me)),
         i + (issues.filter (fun x => is_me x me)).length) := by
  induction issues with
  | nil => intro i; simp [labelLoop, labelLoopSpec]
  | cons x xs ih =>
    intro i
    by_cases h : is_me x me
    · simp [labelLoop, h, List.filter_cons, ih (i + 1), labelLoopSpec]
      omega
    · simp [labelLoop, h, List.filter_cons, ih i]

theorem labelLoopSpec_ge (l : List Issue) : ∀ i : Nat, ANCHOR_NUMBER < i →
    labelLoopSpec i l = l.flatMap add_issue_info := by
  induction l with
  | nil => intro i _; rfl
  | cons x xs ih =>
    intro i hi
    have hne : ¬ (i = ANCHOR_NUMBER) := by omega
    simp [labelLoopSpec, hne, ih (i + 1) (by omega)]

theorem labelLoopSpec_formula (l : List Issue) : ∀ i : Nat,
    i ≤ ANCHOR_NUMBER →
    labelLoopSpec i l
      = (l.take (ANCHOR_NUMBER - i)).flatMap add_issue_info
        ++ (if ANCHOR_NUMBER - i < l.length then details_open else [])
        ++ (l.drop (ANCHOR_NUMBER - i)).flatMap add_issue_info := by
  induction l with
  | nil => intro i _; simp [labelLoopSpec]
  | cons x xs ih =>
    intro i hi
    by_cases h5 : i = ANCHOR_NUMBER
    · subst h5
      have h0 : ANCHOR_NUMBER - ANCHOR_NUMBER = 0 := by omega
      simp [labelLoopSpec, h0, labelLoopSpec_ge xs (ANCHOR_NUMBER + 1) (by omega)]
    · have hi4 : i + 1 ≤ ANCHOR_NUMBER := by omega
      have htake : (x :: xs).take (ANCHOR_NUMBER - i)
          = x :: xs.take (ANCHOR_NUMBER - (i + 1)) := by
        have : ANCHOR_NUMBER - i = (ANCHOR_NUMBER - (i + 1)) + 1 := by omega
        rw [this, List.take_succ_cons]
      have hdrop : (x :: xs).drop (ANCHOR_NUMBER - i)
          = xs.drop (ANCHOR_NUMBER - (i + 1)) := by
        have : ANCHOR_NUMBER - i = (ANCHOR_NUMBER - (i + 1)) + 1 := by omega
        rw [this, List.drop_succ_cons]
      have hcond : (ANCHOR_NUMBER - i < (x :: xs).length)
          = (ANCHOR_NUMBER - (i + 1) < xs.length) := by
        simp only [List.length_cons, eq_iff_iff]
        omega
      simp only [labelLoopSpec, h5, if_false, ih (i + 1) hi4, htake, hdrop,
        hcond, List.flatMap_cons, List.append_assoc, List.nil_append]

/-- C2: for a label group, if exactly `ANCHOR_NUMBER + 1` (6)
owner-authored issues are rendered, the collapsible wrapper opens
exactly after the first `ANCHOR_NUMBER` (5) rendered items and closes
after the section; if at most `ANCHOR_NUMBER` owned issues are
rendered, no collapsible wrapper is emitted at all. -/
theorem c2_anchor_collapse (me : String) (label : Label)
    (issues : List Issue) :
    ((((sortByUpdatedDesc issues).filter (fun x => is_me x me)).length
        = ANCHOR_NUMBER + 1 →
      add_md_label_section me label issues
        = ("## " ++ label.name ++ "\n")
          :: (((sortByUpdatedDesc issues).filter
                (fun x => is_me x me)).take ANCHOR_NUMBER).flatMap add_issue_info
            ++ details_open
            ++ (((sortByUpdatedDesc issues).filter
                (fun x => is_me x me)).drop ANCHOR_NUMBER).flatMap add_issue_info
            ++ details_close))
    ∧ ((((sortByUpdatedDesc issues).filter (fun x => is_me x me)).length
        ≤ ANCHOR_NUMBER →
      add_md_label_section me label issues
        = if issues.isEmpty then []
          else ("## " ++ label.name ++ "\n")
            :: ((sortByUpdatedDesc issues).filter
                (fun x => is_me x me)).flatMap add_issue_info)) := by
  constructor
  · intro h6
    have hne : issues.isEmpty = false := by
      cases issues with
      | nil => simp [sortByUpdatedDesc, List.insertionSort] at h6
      | cons a l => rfl
    unfold add_md_label_section
    rw [hne]
    simp only [Bool.false_eq_true, if_false]
    rw [labelLoop_eq me (sortByUpdatedDesc issues) 0]
    have hform := labelLoopSpec_formula
      ((sortByUpdatedDesc issues).filter (fun x => is_me x me)) 0
      (by omega)
    simp only [Nat.sub_zero] at hform
    rw [hform, h6]
    have hlt : ANCHOR_NUMBER < ANCHOR_NUMBER + 1 := by omega
    have hcount : ANCHOR_NUMBER < 0 + (ANCHOR_NUMBER + 1) := by omega
    simp [hlt, List.append_assoc]
  · intro hle
    cases hissues : issues.isEmpty with
    | true =>
      unfold add_md_label_section
      rw [hissues]
      simp
    | false =>
      unfold add_md_label_section
      rw [hissues]
      simp only [Bool.false_eq_true, if_false]
      rw [labelLoop_eq me (sortByUpdatedDesc issues) 0]
      have hform := labelLoopSpec_formula
        ((sortByUpdatedDesc issues).filter (fun x => is_me x me)) 0
        (by omega)
      simp only [Nat.sub_zero] at hform
      rw [hform]
      have htake : ((sortByUpdatedDesc issues).filter
          (fun x => is_me x me)).take ANCHOR_NUMBER
          = (sortByUpdatedDesc issues).filter (fun x => is_me x me) :=
        List.take_of_length_le hle
      have hdrop : ((sortByUpdatedDesc issues).filter
          (fun x => is_me x me)).drop ANCHOR_NUMBER = [] :=
        List.drop_eq_nil_of_le hle
      have hcond : ¬ (ANCHOR_NUMBER < ((sortByUpdatedDesc issues).filter
          (fun x => is_me x me)).length) := by omega
      have hcount : ¬ (ANCHOR_NUMBER < 0 + ((sortByUpdatedDesc issues).filter
          (fun x => is_me x me)).length) := by omega
      simp [htake, hdrop, hcond, hcount]

/-- Issue constructor shared by the concrete test inputs: number and
update time `n`, author `u`, optional body. -/
def testIssue (n : Nat) (u : String) (body : Option String) : Issue :=
  { number := n, title := "t", html_url := "u", body := body, user := u,
    created_at := n, updated_at := n, labels := [], pull_request := false,
    comments := [] }

/-- Six owner-authored issues for the collapse-threshold witness. -/
def sixOwnedIssues : List Issue :=
  [testIssue 1 "me" none, testIssue 2 "me" none, testIssue 3 "me" none,
   testIssue 4 "me" none, testIssue 5 "me" none, testIssue 6 "me" none]

/-- Plain label used by the concrete witnesses. -/
def plainLabel : Label := { name := "L", description := none }

/-- C2 witness: six owned issues trigger the wrapper, five do not,
both via the theorem applied at concrete inputs. -/
theorem c2_anchor_collapse_witness :
    (add_md_label_section "me" plainLabel sixOwnedIssues
      = ("## " ++ plainLabel.name ++ "\n")
        :: ((((sortByUpdatedDesc sixOwnedIssues).filter
              (fun x => is_me x "me")).take ANCHOR_NUMBER).flatMap add_issue_info
          ++ details_open
          ++ (((sortByUpdatedDesc sixOwnedIssues).filter
              (fun x => is_me x "me")).drop ANCHOR_NUMBER).flatMap add_issue_info
          ++ details_close))
    ∧ (add_md_label_section "me" plainLabel (sixOwnedIssues.take 5)
      = if (sixOwnedIssues.take 5).isEmpty then []
        else ("## " ++ plainLabel.name ++ "\n")
          :: ((sortByUpdatedDesc (sixOwnedIssues.take 5)).filter
              (fun x => is_me x "me")).flatMap add_issue_info) :=
  ⟨(c2_anchor_collapse "me" plainLabel sixOwnedIssues).1 (by decide),
   (c2_anchor_collapse "me" plainLabel (sixOwnedIssues.take 5)).2 (by decide)⟩

/-- `add_md_top` (`blog_generator.py`): nothing at all when no
Top-labelled issues exist; otherwise the heading followed by the
owner-authored ones, recency-sorted. -/
def add_md_top (me : String) (top_issues : List Issue) : List String :=
  if top_issues.isEmpty then []
  else "## 置顶文章\n"
    :: ((sortByUpdatedDesc top_issues).filter
        (fun x => is_me x me)).flatMap add_issue_info

/-- `add_md_recent` (`blog_generator.py`): the heading is written
before any filtering, then at most `limit` owner-authored issues in
recency order. -/
def add_md_recent (me : String) (all_issues : List Issue)
    (limit : Nat) : List String :=
  "## 最近更新\n"
    :: (((sortByUpdatedDesc all_issues).filter
        (fun x => is_me x me)).take limit).flatMap add_issue_info

/-- `parse_TODO` (`blog_generator.py`): `issue.body.splitlines()`
raises `AttributeError` when the body is `None`, modelled as
`Except.error`; otherwise classify checkbox lines and build the
summary. -/
def parse_TODO (issue : Issue) : Except String (String × List String) :=
  match issue.body with
  | none => Except.error "AttributeError"
  | some b =>
    if ((pySplitlines b).filter (fun l => pyStartsWith l "- [ ] ")).isEmpty then
      Except.ok ("[" ++ issue.title ++ "](" ++ issue.html_url ++ ") all done", [])
    else
      Except.ok ("[" ++ issue.title ++ "](" ++ issue.html_url ++ ")--"
        ++ toString ((pySplitlines b).filter
            (fun l => pyStartsWith l "- [ ] ")).length
        ++ " jobs to do--"
        ++ toString ((pySplitlines b).filter
            (fun l => pyStartsWith l "- [x] ")).length
        ++ " jobs done",
        (pySplitlines b).filter (fun l => pyStartsWith l "- [x] ")
          ++ (pySplitlines b).filter (fun l => pyStartsWith l "- [ ] "))

theorem parse_TODO_ne_error {issue : Issue} {b : String}
    (h : issue.body = some b) (e : String) :
    parse_TODO issue ≠ Except.error e := by
  intro hcon
  unfold parse_TODO at hcon
  rw [h] at hcon
  by_cases hu : (pySplitlines b).filter (fun l => pyStartsWith l "- [ ] ") = []
  · simp [List.isEmpty_iff, hu] at hcon
  · simp [List.isEmpty_iff, hu] at hcon

theorem parse_TODO_some {issue : Issue} {b : String}
    (h : issue.body = some b) : ∃ r, parse_TODO issue = Except.ok r := by
  cases hpt : parse_TODO issue with
  | error e => exact absurd hpt (parse_TODO_ne_error h e)
  | ok r => exact ⟨r, rfl⟩

/-- Loop body of `add_md_todo` over the sorted TODO issues: a
`parse_TODO` failure aborts the whole section. -/
def todoLoop (me : String) : List Issue → Except String (List String)
  | [] => Except.ok []
  | issue :: rest =>
    if is_me issue me then
      match parse_TODO issue with
      | Except.error e => Except.error e
      | Except.ok r =>
        match todoLoop me rest with
        | Except.error e => Except.error e
        | Except.ok restLines =>
          Except.ok (("TODO list from " ++ r.1 ++ "\n")
            :: r.2.map (fun t => t ++ "\n") ++ ["\n"] ++ restLines)
    else todoLoop me rest

/-- `add_md_todo` (`blog_generator.py`): nothing when no TODO-labelled
issues exist; otherwise the heading and the per-issue TODO lists. -/
def add_md_todo (me : String) (todo_issues : List Issue) :
    Except String (List String) :=
  if todo_issues.isEmpty then Except.ok []
  else
    match todoLoop me (sortByUpdatedDesc todo_issues) with
    | Except.error e => Except.error e
    | Except.ok ls => Except.ok ("## TODO\n" :: ls)

/-- `is_hearted_by_me` (`blog_generator.py`): some reaction on the
comment is a `heart` from the owner. -/
def is_hearted_by_me (comment : Comment) (me : String) : Bool :=
  comment.reactions.any (fun r => r.content == "heart" && r.user == me)

/-- `FRIENDS_TABLE_HEAD` constant. -/
def FRIENDS_TABLE_HEAD : String :=
  "| Name | Link | Desc | \n | ---- | ---- | ---- |\n"

/-- `FRIENDS_INFO_DICT` constant, as an insertion-ordered association
list (only these three keys are ever read back). -/
def FRIENDS_INFO_DICT : List (String × String) :=
  [("名字", ""), ("链接", ""), ("描述", "")]

/-- Python `str.isspace()`. -/
def pyIsSpace (s : String) : Bool :=
  !s.toList.isEmpty && s.toList.all pySpace

/-- Line filter `if l and not l.isspace()` from
`_make_friend_table_string`. -/
def keepLine (l : String) : Bool :=
  !(l == "") && !(pyIsSpace l)

/-- Python dict assignment `d[k] = v` on the association-list model:
overwrite the existing entry or append a new one. -/
def dictSet (d : List (String × String)) (k v : String) :
    List (String × String) :=
  if d.any (fun p => p.1 == k) then
    d.map (fun p => if p.1 == k then (k, v) else p)
  else d ++ [(k, v)]

/-- Python dict lookup `d[k]`, defaulting to `""` (the three keys read
back are always present with initial value `""`). -/
def dictGet (d : List (String × String)) (k : String) : String :=
  match d.find? (fun p => p.1 == k) with
  | some p => p.2
  | none => ""

/-- One loop iteration of `_make_friend_table_string`:
`re.split("：", l)`, skip when fewer than two fields, else assign. -/
def processFriendLine (d : List (String × String)) (l : String) :
    List (String × String) :=
  match pySplit l '：' with
  | k :: v :: _ => dictSet d k v
  | _ => d

/-- The dictionary state after processing all kept lines of a comment
body in `_make_friend_table_string`. -/
def friend_dict (s : String) : List (String × String) :=
  ((pySplitlines s).filter keepLine).foldl processFriendLine FRIENDS_INFO_DICT

/-- `_make_friend_table_string` (`blog_generator.py`): the rendered
table row; every operation in the Python `try` body is total on
strings, so the function always produces a row. -/
def make_friend_table_string (s : String) : String :=
  let d := friend_dict s
  "| " ++ dictGet d "名字" ++ " | " ++ dictGet d "链接" ++ " | "
    ++ dictGet d "描述" ++ " |\n"

/-- `add_md_firends` (`blog_generator.py`): nothing when no
Friends-labelled issues exist; otherwise the heading, a collapsible
wrapper and the converted table built from the owner-hearted comments
(`convert` stands for the external `markdown.markdown`). -/
def add_md_firends (convert : String → String) (me : String)
    (friends_issues : List Issue) : List String :=
  match friends_issues with
  | [] => []
  | first :: _ =>
    let s := FRIENDS_TABLE_HEAD ++ String.join
      (friends_issues.flatMap (fun issue =>
        (issue.comments.filter (fun c => is_hearted_by_me c me)).map
          (fun c => make_friend_table_string (c.body.getD ""))))
    ["## [友情链接](https://github.com/" ++ me ++ "/gitblog/issues/"
        ++ toString first.number ++ ")\n",
     "<details><summary>显示</summary>\n",
     convert s,
     "</details>\n",
     "\n\n"]

/-- C3 counterexample: one Top-labelled issue authored by someone else
gives an empty owned candidate set, yet `add_md_top` still writes the
section heading, contradicting the claim that such a section writes
nothing. -/
theorem c3_empty_sections_counterexample :
    ((sortByUpdatedDesc [testIssue 1 "other" none]).filter
        (fun x => is_me x "me")) = []
    ∧ add_md_top "me" [testIssue 1 "other" none] = ["## 置顶文章\n"]
    ∧ add_md_top "me" [testIssue 1 "other" none] ≠ [] := by
  decide

theorem todoLoop_none (me : String) : ∀ l : List Issue,
    (∀ i ∈ l, is_me i me = false) → todoLoop me l = Except.ok [] := by
  intro l
  induction l with
  | nil => intro _; rfl
  | cons x xs ih =>
    intro h
    have hx : is_me x me = false := h x (List.mem_cons_self x xs)
    have hrest : ∀ i ∈ xs, is_me i me = false :=
      fun i hi => h i (List.mem_cons_of_mem x hi)
    simp [todoLoop, hx, ih hrest]

/-- C3 as amended: emptiness is judged on the label-matching candidate
set, before the ownership filter: when that set is empty, the
Top/TODO/label-group/Friends sections write nothing, not even a
heading; when it is non-empty each of those sections still writes its
heading (for Friends, the heading and wrapper around the bare table
head) even when zero owned/endorsed items follow; the Recent heading
is always written. -/
theorem c3_empty_sections_amended (convert : String → String)
    (me : String) (label : Label)
    (top_issues todo_issues label_issues friends_issues
      recent_issues : List Issue) (limit : Nat) :
    add_md_top me [] = []
    ∧ add_md_todo me [] = Except.ok []
    ∧ add_md_label_section me label [] = []
    ∧ add_md_firends convert me [] = []
    ∧ (add_md_recent me recent_issues limit).head? = some "## 最近更新\n"
    ∧ (top_issues ≠ [] →
        (sortByUpdatedDesc top_issues).filter (fun x => is_me x me) = [] →
        add_md_top me top_issues = ["## 置顶文章\n"])
    ∧ (todo_issues ≠ [] →
        (sortByUpdatedDesc todo_issues).filter (fun x => is_me x me) = [] →
        add_md_todo me todo_issues = Except.ok ["## TODO\n"])
    ∧ (label_issues ≠ [] →
        (sortByUpdatedDesc label_issues).filter (fun x => is_me x me) = [] →
        add_md_label_section me label label_issues
          = ["## " ++ label.name ++ "\n"])
    ∧ (∀ first rest, friends_issues = first :: rest →
        (∀ issue ∈ friends_issues, ∀ c ∈ issue.comments,
          is_hearted_by_me c me = false) →
        add_md_firends convert me friends_issues
          = ["## [友情链接](https://github.com/" ++ me ++ "/gitblog/issues/"
                ++ toString first.number ++ ")\n",
             "<details><summary>显示</summary>\n",
             convert FRIENDS_TABLE_HEAD,
             "</details>\n",
             "\n\n"])
    ∧ (top_issues ≠ [] →
        (add_md_top me top_issues).head? = some "## 置顶文章\n") := by
  refine ⟨rfl, rfl, rfl, rfl, rfl, ?_, ?_, ?_, ?_, ?_⟩
  · intro h1 h2
    have h : top_issues.isEmpty = false := by
      cases top_issues with
      | nil => exact absurd rfl h1
      | cons a l => rfl
    unfold add_md_top
    rw [h]
    simp only [Bool.false_eq_true, if_false]
    rw [h2]
    rfl
  · intro h1 h2
    have h : todo_issues.isEmpty = false := by
      cases todo_issues with
      | nil => exact absurd rfl h1
      | cons a l => rfl
    have hnone : ∀ i ∈ sortByUpdatedDesc todo_issues, is_me i me = false := by
      intro i hi
      have hni := List.filter_eq_nil_iff.mp h2 i hi
      simpa using hni
    unfold add_md_todo
    rw [h]
    simp only [Bool.false_eq_true, if_false]
    rw [todoLoop_none me _ hnone]
  · intro h1 h2
    have h : label_issues.isEmpty = false := by
      cases label_issues with
      | nil => exact absurd rfl h1
      | cons a l => rfl
    unfold add_md_label_section
    rw [h]
    simp only [Bool.false_eq_true, if_false]
    rw [labelLoop_eq me (sortByUpdatedDesc label_issues) 0, h2]
    simp [labelLoopSpec, ANCHOR_NUMBER]
  · intro first rest hfe h2
    subst hfe
    have hflat : (first :: rest).flatMap (fun issue =>
        (issue.comments.filter (fun c => is_hearted_by_me c me)).map
          (fun c => make_friend_table_string (c.body.getD ""))) = [] := by
      rw [List.flatMap_eq_nil_iff]
      intro issue hi
      have hf : issue.comments.filter (fun c => is_hearted_by_me c me)
          = [] :=
        List.filter_eq_nil_iff.mpr (fun c hc => by simp [h2 issue hi c hc])
      rw [hf, List.map_nil]
    simp only [add_md_firends]
    rw [hflat]
    show ["## [友情链接](https://github.com/" ++ me ++ "/gitblog/issues/"
            ++ toString first.number ++ ")\n",
          "<details><summary>显示</summary>\n",
          convert (FRIENDS_TABLE_HEAD ++ String.join []),
          "</details>\n",
          "\n\n"] = _
    rw [show FRIENDS_TABLE_HEAD ++ String.join []
      = FRIENDS_TABLE_HEAD from String.append_empty FRIENDS_TABLE_HEAD]
  · intro hne
    have h : top_issues.isEmpty = false := by
      cases top_issues with
      | nil => exact absurd rfl hne
      | cons a l => rfl
    unfold add_md_top
    rw [h]
    rfl

/-- C3 witness: all four heading-with-zero-items conjuncts of the
amended theorem at a concrete one-issue candidate list owned by
someone else (and, for Friends, with no endorsed comments). -/
theorem c3_empty_sections_amended_witness :
    add_md_top "me" [testIssue 1 "other" none] = ["## 置顶文章\n"]
    ∧ add_md_todo "me" [testIssue 1 "other" none] = Except.ok ["## TODO\n"]
    ∧ add_md_label_section "me" plainLabel [testIssue 1 "other" none]
        = ["## " ++ plainLabel.name ++ "\n"]
    ∧ add_md_firends id "me" [testIssue 1 "other" none]
        = ["## [友情链接](https://github.com/" ++ "me" ++ "/gitblog/issues/"
              ++ toString (testIssue 1 "other" none).number ++ ")\n",
           "<details><summary>显示</summary>\n",
           id FRIENDS_TABLE_HEAD,
           "</details>\n",
           "\n\n"]
    ∧ (add_md_top "me" [testIssue 1 "other" none]).head?
        = some "## 置顶文章\n" :=
  ⟨(c3_empty_sections_amended id "me" plainLabel [testIssue 1 "other" none]
      [testIssue 1 "other" none] [testIssue 1 "other" none]
      [testIssue 1 "other" none] [testIssue 1 "other" none]
      0).2.2.2.2.2.1 (by decide) (by decide),
   (c3_empty_sections_amended id "me" plainLabel [testIssue 1 "other" none]
      [testIssue 1 "other" none] [testIssue 1 "other" none]
      [testIssue 1 "other" none] [testIssue 1 "other" none]
      0).2.2.2.2.2.2.1 (by decide) (by decide),
   (c3_empty_sections_amended id "me" plainLabel [testIssue 1 "other" none]
      [testIssue 1 "other" none] [testIssue 1 "other" none]
      [testIssue 1 "other" none] [testIssue 1 "other" none]
      0).2.2.2.2.2.2.2.1 (by decide) (by decide),
   (c3_empty_sections_amended id "me" plainLabel [testIssue 1 "other" none]
      [testIssue 1 "other" none] [testIssue 1 "other" none]
      [testIssue 1 "other" none] [testIssue 1 "other" none]
      0).2.2.2.2.2.2.2.2.1 (testIssue 1 "other" none) [] rfl (by decide),
   (c3_empty_sections_amended id "me" plainLabel [testIssue 1 "other" none]
      [testIssue 1 "other" none] [testIssue 1 "other" none]
      [testIssue 1 "other" none] [testIssue 1 "other" none]
      0).2.2.2.2.2.2.2.2.2 (by decide)⟩

/-- C4: for a present TODO body, zero undone checkbox lines give the
`all done` summary with an empty task list; otherwise the summary
carries the undone and done counts and the task list is all done
lines first, then all undone lines, each group in original body
order (they are order-preserving filters of the body's lines); lines
matching neither marker never appear in the task list. -/
theorem c4_parse_todo (issue : Issue) (b : String)
    (h : issue.body = some b) :
    ((pySplitlines b).filter (fun l => pyStartsWith l "- [ ] ") = [] →
      parse_TODO issue = Except.ok
        ("[" ++ issue.title ++ "](" ++ issue.html_url ++ ") all done", []))
    ∧ ((pySplitlines b).filter (fun l => pyStartsWith l "- [ ] ") ≠ [] →
      parse_TODO issue = Except.ok
        ("[" ++ issue.title ++ "](" ++ issue.html_url ++ ")--"
          ++ toString ((pySplitlines b).filter
              (fun l => pyStartsWith l "- [ ] ")).length
          ++ " jobs to do--"
          ++ toString ((pySplitlines b).filter
              (fun l => pyStartsWith l "- [x] ")).length
          ++ " jobs done",
         (pySplitlines b).filter (fun l => pyStartsWith l "- [x] ")
           ++ (pySplitlines b).filter (fun l => pyStartsWith l "- [ ] ")))
    ∧ (∀ r, parse_TODO issue = Except.ok r → ∀ t ∈ r.2,
        pyStartsWith t "- [x] " = true ∨ pyStartsWith t "- [ ] " = true) := by
  refine ⟨?_, ?_, ?_⟩
  · intro hu
    unfold parse_TODO
    rw [h]
    simp [List.isEmpty_iff, hu]
  · intro hu
    unfold parse_TODO
    rw [h]
    simp [List.isEmpty_iff, hu]
  · intro r hr t ht
    unfold parse_TODO at hr
    rw [h] at hr
    by_cases hu : (pySplitlines b).filter (fun l => pyStartsWith l "- [ ] ") = []
    · simp only [List.isEmpty_iff, hu, if_true, Except.ok.injEq] at hr
      rw [← hr] at ht
      cases ht
    · simp only [List.isEmpty_iff, hu, if_false, Except.ok.injEq] at hr
      rw [← hr] at ht
      rcases List.mem_append.mp ht with hm | hm
      · exact Or.inl (List.mem_filter.mp hm).2
      · exact Or.inr (List.mem_filter.mp hm).2

/-- C4 witness: the spec example body evaluated through the theorem: 2
undone, 1 done, done-first task list. -/
theorem c4_parse_todo_witness :
    parse_TODO (testIssue 1 "me" (some "- [x] a\n- [ ] b\n- [ ] c"))
      = Except.ok ("[t](u)--2 jobs to do--1 jobs done",
          ["- [x] a", "- [ ] b", "- [ ] c"]) := by
  rw [(c4_parse_todo (testIssue 1 "me" (some "- [x] a\n- [ ] b\n- [ ] c"))
    "- [x] a\n- [ ] b\n- [ ] c" rfl).2.1 (by decide)]
  rfl

theorem todoLoop_error (me : String) : ∀ l : List Issue,
    (∃ i, i ∈ l ∧ is_me i me = true ∧ i.body = none) →
    ∃ e, todoLoop me l = Except.error e := by
  intro l
  induction l with
  | nil =>
    rintro ⟨i, hi, -, -⟩
    cases hi
  | cons x xs ih =>
    rintro ⟨i, hi, him, hib⟩
    by_cases hm : is_me x me
    · cases hxb : x.body with
      | none =>
        refine ⟨"AttributeError", ?_⟩
        simp [todoLoop, hm, parse_TODO, hxb]
      | some b =>
        have hirest : i ∈ xs := by
          rcases List.mem_cons.mp hi with rfl | hr
          · rw [hxb] at hib
            cases hib
          · exact hr
        obtain ⟨e, he⟩ := ih ⟨i, hirest, him, hib⟩
        obtain ⟨r, hr⟩ := parse_TODO_some hxb
        exact ⟨e, by simp [todoLoop, hm, hr, he]⟩
    · have hirest : i ∈ xs := by
        rcases List.mem_cons.mp hi with rfl | hr
        · exact absurd him (by simpa using hm)
        · exact hr
      obtain ⟨e, he⟩ := ih ⟨i, hirest, him, hib⟩
      exact ⟨e, by simp [todoLoop, hm, he]⟩

/-- C10: `parse_TODO` is not total on absent bodies: a `None` body
makes it raise (`Except.error`), and a single owner-authored TODO
issue without a body makes the whole `add_md_todo` section abort with
that error instead of the issue being skipped. -/
theorem c10_todo_none_aborts (me : String) (todo_issues : List Issue)
    (issue : Issue) :
    (issue.body = none → parse_TODO issue = Except.error "AttributeError")
    ∧ (issue ∈ todo_issues → is_me issue me = true → issue.body = none →
        ∃ e, add_md_todo me todo_issues = Except.error e) := by
  constructor
  · intro hb
    unfold parse_TODO
    rw [hb]
  · intro hmem him hb
    have hne : todo_issues.isEmpty = false := by
      cases todo_issues with
      | nil => cases hmem
      | cons a l => rfl
    have hmem2 : issue ∈ sortByUpdatedDesc todo_issues :=
      ((sortByUpdatedDesc_perm todo_issues).mem_iff).mpr hmem
    obtain ⟨e, he⟩ := todoLoop_error me _ ⟨issue, hmem2, him, hb⟩
    exact ⟨e, by simp [add_md_todo, hne, he]⟩

/-- C10 witness: a concrete owner-authored TODO issue with `None` body
aborts the section, via the theorem at that input. -/
theorem c10_todo_none_aborts_witness :
    parse_TODO (testIssue 1 "me" none) = Except.error "AttributeError"
    ∧ ∃ e, add_md_todo "me" [testIssue 1 "me" none] = Except.error e :=
  ⟨(c10_todo_none_aborts "me" [testIssue 1 "me" none]
      (testIssue 1 "me" none)).1 rfl,
   (c10_todo_none_aborts "me" [testIssue 1 "me" none]
      (testIssue 1 "me" none)).2 (by decide) (by decide) rfl⟩

/-- Feed entry fields set by `generate_rss_feed`: `published` carries
the issue's creation time, one category per label, body content
converted after XML-character filtering. -/
structure FeedEntry where
  id : String
  link : String
  title : String
  published : Nat
  categories : List String
  content : String
deriving DecidableEq, Repr

/-- Python truthiness of `issue.body` (`None` and `""` are falsy). -/
def bodyTruthy (body : Option String) : Bool :=
  match body with
  | none => false
  | some b => !(b == "")

/-- Negation of the `continue` condition in `generate_rss_feed`:
non-empty body, owner-authored, not a pull request. -/
def feed_qualifies (me : String) (issue : Issue) : Bool :=
  bodyTruthy issue.body && is_me issue me && !issue.pull_request

/-- `_valid_xml_char_ordinal` (`blog_generator.py`). -/
def valid_xml_char (c : Char) : Bool :=
  (0x20 ≤ c.toNat && c.toNat ≤ 0xD7FF)
    || c.toNat == 0x9 || c.toNat == 0xA || c.toNat == 0xD
    || (0xE000 ≤ c.toNat && c.toNat ≤ 0xFFFD)
    || (0x10000 ≤ c.toNat && c.toNat ≤ 0x10FFFF)

/-- One feed entry of `generate_rss_feed`; `convert` stands for the
external `marko.convert`/`CDATA` embedding. -/
def mk_feed_entry (convert : String → String) (issue : Issue) : FeedEntry :=
  { id := issue.html_url, link := issue.html_url, title := issue.title,
    published := issue.created_at,
    categories := issue.labels.map Label.name,
    content := convert (String.mk
      ((issue.body.getD "").toList.filter valid_xml_char)) }

/-- Entry loop of `generate_rss_feed` over the recency-sorted issues:
`if not issue.body or not is_me or issue.pull_request: continue`. -/
def feedLoop (convert : String → String) (me : String) :
    List Issue → List FeedEntry
  | [] => []
  | issue :: rest =>
    if !(bodyTruthy issue.body) || !(is_me issue me) || issue.pull_request
    then feedLoop convert me rest
    else mk_feed_entry convert issue :: feedLoop convert me rest

/-- `generate_rss_feed` (`blog_generator.py`), as the ordered entry
list of the produced feed. -/
def generate_rss_feed (convert : String → String) (me : String)
    (issues : List Issue) : List FeedEntry :=
  feedLoop convert me (sortByUpdatedDesc issues)

/-- The issues whose entries the feed contains, in feed order. -/
def feed_issues (me : String) (issues : List Issue) : List Issue :=
  (sortByUpdatedDesc issues).filter (feed_qualifies me)

theorem feedLoop_eq (convert : String → String) (me : String) :
    ∀ l : List Issue, feedLoop convert me l
      = (l.filter (feed_qualifies me)).map (mk_feed_entry convert) := by
  intro l
  induction l with
  | nil => rfl
  | cons x xs ih =>
    have hcond : (!(bodyTruthy x.body) || !(is_me x me) || x.pull_request)
        = !(feed_qualifies me x) := by
      unfold feed_qualifies
      cases bodyTruthy x.body <;> cases is_me x me
        <;> cases x.pull_request <;> rfl
    cases hq : feed_qualifies me x with
    | true =>
      have : (!(bodyTruthy x.body) || !(is_me x me) || x.pull_request)
          = false := by rw [hcond, hq]; rfl
      simp [feedLoop, this, List.filter_cons, hq, ih]
    | false =>
      have : (!(bodyTruthy x.body) || !(is_me x me) || x.pull_request)
          = true := by rw [hcond, hq]; rfl
      simp [feedLoop, this, List.filter_cons, hq, ih]

/-- C6: the feed contains exactly the issues with truthy body,
authored by the owner and not flagged as pull requests; entries are in
update-time-descending order (strictly so when the qualifying update
times are distinct, which yields `t3, t2, t1` for times
`t1 < t2 < t3`); each entry's `published` field is the issue's
creation time and it carries one category per label. -/
theorem c6_feed_entries (convert : String → String) (me : String)
    (issues : List Issue) :
    generate_rss_feed convert me issues
      = (feed_issues me issues).map (mk_feed_entry convert)
    ∧ (feed_issues me issues).Perm (issues.filter (feed_qualifies me))
    ∧ List.Pairwise (fun a b => b.updated_at ≤ a.updated_at)
        (feed_issues me issues)
    ∧ (∀ e ∈ generate_rss_feed convert me issues, ∃ i, i ∈ issues
        ∧ feed_qualifies me i = true ∧ e.published = i.created_at
        ∧ e.categories = i.labels.map Label.name)
    ∧ (List.Pairwise (fun a b => a.updated_at ≠ b.updated_at)
          (issues.filter (feed_qualifies me)) →
        List.Pairwise (fun a b => b.updated_at < a.updated_at)
          (feed_issues me issues)) := by
  have hperm : (feed_issues me issues).Perm
      (issues.filter (feed_qualifies me)) :=
    List.Perm.filter (feed_qualifies me) (sortByUpdatedDesc_perm issues)
  have hsorted : List.Pairwise (fun a b => b.updated_at ≤ a.updated_at)
      (feed_issues me issues) :=
    ((sortByUpdatedDesc_sorted issues).filter (feed_qualifies me)).imp
      (fun h => h)
  refine ⟨feedLoop_eq convert me (sortByUpdatedDesc issues), hperm,
    hsorted, ?_, ?_⟩
  · intro e he
    unfold generate_rss_feed at he
    rw [feedLoop_eq convert me (sortByUpdatedDesc issues)] at he
    obtain ⟨i, hif, rfl⟩ := List.mem_map.mp he
    have hi1 := List.mem_filter.mp hif
    exact ⟨i, (sortByUpdatedDesc_perm issues).subset hi1.1, hi1.2, rfl, rfl⟩
  · intro hne
    have hne2 : List.Pairwise (fun a b => a.updated_at ≠ b.updated_at)
        (feed_issues me issues) :=
      ((List.Perm.pairwise_iff (fun h => h.symm) hperm).mpr) hne
    exact (hsorted.and hne2).imp
      (fun h => lt_of_le_of_ne h.1 (Ne.symm h.2))

/-- Three qualifying issues with update times 1 < 2 < 3 for the feed
ordering witness. -/
def feedTestIssues : List Issue :=
  [testIssue 1 "me" (some "x"), testIssue 2 "me" (some "x"),
   testIssue 3 "me" (some "x")]

/-- C6 witness: with distinct qualifying update times the feed issue
order is strictly descending, via the theorem at a concrete input. -/
theorem c6_feed_entries_witness :
    List.Pairwise (fun a b => b.updated_at < a.updated_at)
      (feed_issues "me" feedTestIssues) :=
  (c6_feed_entries id "me" feedTestIssues).2.2.2.2 (by decide)

/-- Character replacement chain of `save_issue` (`main.py`):
`.replace('/', '-').replace(' ', '.').replace('\\', '-')`. -/
def charReplace (c : Char) : Char :=
  if c = '/' then '-' else if c = ' ' then '.'
  else if c = '\\' then '-' else c

/-- Retained characters: `c.isalnum() or c in '.-_'`. -/
def allowedChar (c : Char) : Bool :=
  c.isAlphanum || c = '.' || c = '-' || c = '_'

/-- Filename sanitization of `save_issue` (`main.py` lines 553-558):
replace path separators and spaces, then keep only alphanumerics and
`. - _`. -/
def sanitize_filename (title : String) : String :=
  String.mk ((title.toList.map charReplace).filter allowedChar)

theorem allowedChar_fixed {c : Char} (h : allowedChar c = true) :
    charReplace c = c := by
  have h1 : c ≠ '/' := by
    intro hcon
    subst hcon
    exact absurd h (by decide)
  have h2 : c ≠ ' ' := by
    intro hcon
    subst hcon
    exact absurd h (by decide)
  have h3 : c ≠ '\\' := by
    intro hcon
    subst hcon
    exact absurd h (by decide)
  simp [charReplace, h1, h2, h3]

/-- C7: filename sanitization is idempotent, its output contains only
alphanumerics and `. - _`, and `A/B C\D` maps to `A-B.C-D`
(determinism is inherent: the embedding is a pure function of the
title). -/
theorem c7_sanitize_filename (t : String) :
    sanitize_filename (sanitize_filename t) = sanitize_filename t
    ∧ (∀ c ∈ (sanitize_filename t).toList, allowedChar c = true)
    ∧ sanitize_filename "A/B C\\D" = "A-B.C-D" := by
  have hmem : ∀ c ∈ (sanitize_filename t).toList, allowedChar c = true := by
    intro c hc
    have hc2 : c ∈ (t.toList.map charReplace).filter allowedChar := hc
    exact (List.mem_filter.mp hc2).2
  refine ⟨?_, hmem, by decide⟩
  unfold sanitize_filename
  congr 1
  show List.filter allowedChar (List.map charReplace
      (List.filter allowedChar (List.map charReplace t.toList)))
    = List.filter allowedChar (List.map charReplace t.toList)
  have hmap : ((t.toList.map charReplace).filter allowedChar).map charReplace
      = (t.toList.map charReplace).filter allowedChar := by
    have hcongr : ∀ c ∈ (t.toList.map charReplace).filter allowedChar,
        charReplace c = id c := by
      intro c hcf
      exact allowedChar_fixed (List.mem_filter.mp hcf).2
    rw [List.map_congr_left hcongr, List.map_id]
  rw [hmap]
  rw [List.filter_eq_self.mpr (fun a ha => (List.mem_filter.mp ha).2)]

/-- C7 witness: idempotence and the allowed-character property at the
concrete example title. -/
theorem c7_sanitize_filename_witness :
    sanitize_filename (sanitize_filename "A/B C\\D")
      = sanitize_filename "A/B C\\D"
    ∧ allowedChar 'A' = true :=
  ⟨(c7_sanitize_filename "A/B C\\D").1,
   (c7_sanitize_filename "A/B C\\D").2.1 'A' (by decide)⟩

/-- Whether a body line assigns the dictionary key `k`: at least two
`：`-separated fields with the first equal to `k`. -/
def setsKey (l k : String) : Bool :=
  match pySplit l '：' with
  | a :: _ :: _ => a == k
  | _ => false

theorem dictGet_cons (p : String × String) (ps : List (String × String))
    (k : String) :
    dictGet (p :: ps) k
      = if (p.1 == k) = true then p.2 else dictGet ps k := by
  cases hp : (p.1 == k) with
  | true =>
    unfold dictGet
    simp [List.find?, hp]
  | false =>
    unfold dictGet
    simp [List.find?, hp]

theorem dictGet_dictSet_self (d : List (String × String)) (k v : String) :
    dictGet (dictSet d k v) k = v := by
  unfold dictSet
  by_cases hany : d.any (fun p => p.1 == k) = true
  · rw [if_pos hany]
    induction d with
    | nil => simp at hany
    | cons p ps ih =>
      rw [List.map_cons]
      by_cases hp : (p.1 == k) = true
      · rw [if_pos hp, dictGet_cons]
        simp
      · have hp2 : (p.1 == k) = false := by simpa using hp
        rw [if_neg hp, dictGet_cons, if_neg hp]
        apply ih
        simp only [List.any_cons, hp2, Bool.false_or] at hany
        exact hany
  · rw [if_neg hany]
    have hnone : d.find? (fun p => p.1 == k) = none :=
      List.find?_eq_none.mpr (fun x hx hpx =>
        hany (List.any_eq_true.mpr ⟨x, hx, hpx⟩))
    unfold dictGet
    rw [List.find?_append, hnone, Option.none_or]
    simp [List.find?]

theorem dictGet_dictSet_ne (d : List (String × String)) (k k' v : String)
    (hne : k' ≠ k) : dictGet (dictSet d k' v) k = dictGet d k := by
  unfold dictSet
  by_cases hany : d.any (fun p => p.1 == k') = true
  · rw [if_pos hany]
    clear hany
    induction d with
    | nil => rfl
    | cons p ps ih =>
      rw [List.map_cons]
      by_cases hp : (p.1 == k') = true
      · have hpk : (p.1 == k) = false := by
          have hpv : p.1 = k' := by simpa using hp
          simp [hpv, hne]
        have hk'k : (k' == k) = false := by simp [hne]
        rw [if_pos hp, dictGet_cons, dictGet_cons]
        simp only [hk'k, hpk, Bool.false_eq_true, if_false]
        exact ih
      · rw [if_neg hp, dictGet_cons, dictGet_cons]
        by_cases hpk : (p.1 == k) = true
        · rw [if_pos hpk, if_pos hpk]
        · rw [if_neg hpk, if_neg hpk]
          exact ih
  · rw [if_neg hany]
    have hk'k : (k' == k) = false := by simp [hne]
    cases hfind : d.find? (fun p => p.1 == k) with
    | some p =>
      unfold dictGet
      rw [List.find?_append, hfind]
      rfl
    | none =>
      unfold dictGet
      rw [List.find?_append, hfind]
      simp [List.find?, hk'k]

theorem friendFold_no_set (k : String) : ∀ (ls : List String)
    (d : List (String × String)), (∀ l ∈ ls, setsKey l k = false) →
    dictGet (ls.foldl processFriendLine d) k = dictGet d k := by
  intro ls
  induction ls with
  | nil => intro d _; rfl
  | cons l ls ih =>
    intro d h
    have hl := h l (List.mem_cons_self l ls)
    have hrest : ∀ l' ∈ ls, setsKey l' k = false :=
      fun l' hl' => h l' (List.mem_cons_of_mem l hl')
    rw [List.foldl_cons]
    rw [ih (processFriendLine d l) hrest]
    unfold processFriendLine
    cases hsp : pySplit l '：' with
    | nil => rfl
    | cons a rest =>
      cases rest with
      | nil => rfl
      | cons v0 rest2 =>
        have hak : (a == k) = false := by
          unfold setsKey at hl
          rw [hsp] at hl
          exact hl
        exact dictGet_dictSet_ne d k a v0 (by simpa using hak)

theorem friendFold_last_set (k v : String) (pre post : List String)
    (l : String) (rest : List String) (d : List (String × String))
    (hsp : pySplit l '：' = k :: v :: rest)
    (hpost : ∀ l' ∈ post, setsKey l' k = false) :
    dictGet ((pre ++ l :: post).foldl processFriendLine d) k = v := by
  rw [List.foldl_append, List.foldl_cons]
  rw [friendFold_no_set k post _ hpost]
  have hpl : processFriendLine (pre.foldl processFriendLine d) l
      = dictSet (pre.foldl processFriendLine d) k v := by
    unfold processFriendLine
    rw [hsp]
  rw [hpl]
  exact dictGet_dictSet_self _ k v

theorem dictGet_init (k : String) : dictGet FRIENDS_INFO_DICT k = "" := by
  by_cases h1 : (("名字" : String) == k) = true
    <;> by_cases h2 : (("链接" : String) == k) = true
    <;> by_cases h3 : (("描述" : String) == k) = true
    <;> simp [dictGet, FRIENDS_INFO_DICT, List.find?, h1, h2, h3]

/-- C8: the key-value block processing always yields exactly one table
row: fields default to `""` when their key never occurs (the function
is total, so missing keys never fail); blank or whitespace-only lines
are dropped before processing; a line without the `：` separator
leaves the state unchanged; and the last occurrence of a key wins.
The surrounding Friends section is likewise total: a non-empty
Friends issue list always contributes exactly its five lines, so no
failure propagates out of the section. -/
theorem c8_friend_kv_block (s k v : String) (convert : String → String)
    (me : String) (friends_issues : List Issue) :
    (∃ n lk de, make_friend_table_string s
        = "| " ++ n ++ " | " ++ lk ++ " | " ++ de ++ " |\n")
    ∧ ((∀ l ∈ (pySplitlines s).filter keepLine, setsKey l k = false) →
        dictGet (friend_dict s) k = "")
    ∧ (∀ pre post l, (pySplitlines s).filter keepLine = pre ++ l :: post →
        (∃ rest, pySplit l '：' = k :: v :: rest) →
        (∀ l' ∈ post, setsKey l' k = false) →
        dictGet (friend_dict s) k = v)
    ∧ (∀ d l, (pySplit l '：').length < 2 → processFriendLine d l = d)
    ∧ (∀ l ∈ (pySplitlines s).filter keepLine,
        ¬ (l = "") ∧ pyIsSpace l = false)
    ∧ make_friend_table_string "" = "|  |  |  |\n"
    ∧ (friends_issues ≠ [] →
        (add_md_firends convert me friends_issues).length = 5) := by
  refine ⟨⟨_, _, _, rfl⟩, ?_, ?_, ?_, ?_, by decide, ?_⟩
  · intro h
    unfold friend_dict
    rw [friendFold_no_set k _ _ h]
    exact dictGet_init k
  · intro pre post l heq ⟨rest, hsp⟩ hpost
    unfold friend_dict
    rw [heq]
    exact friendFold_last_set k v pre post l rest _ hsp hpost
  · intro d l hlen
    unfold processFriendLine
    cases hsp : pySplit l '：' with
    | nil => rfl
    | cons a rest =>
      cases rest with
      | nil => rfl
      | cons v0 rest2 =>
        rw [hsp] at hlen
        simp only [List.length_cons] at hlen
        omega
  · intro l hl
    have h2 := (List.mem_filter.mp hl).2
    constructor
    · intro hcon
      subst hcon
      exact Bool.noConfusion h2
    · cases hps : pyIsSpace l with
      | false => rfl
      | true =>
        exfalso
        unfold keepLine at h2
        rw [hps] at h2
        simp at h2
  · intro hne
    cases friends_issues with
    | nil => exact absurd rfl hne
    | cons a l => rfl

/-- C8 witness: later occurrences overwrite earlier ones and lines
without the separator are skipped, at a concrete comment body, via
the theorem's conjuncts. -/
theorem c8_friend_kv_block_witness :
    dictGet (friend_dict "名字：a\n名字：b\nx\n链接：c") "名字" = "b" :=
  (c8_friend_kv_block "名字：a\n名字：b\nx\n链接：c" "名字" "b" id "me"
      []).2.2.1 ["名字：a"] ["x", "链接：c"] "名字：b" (by decide)
    ⟨[], by decide⟩ (by decide)

/-- Python `int(str)` on the trimmed decimal string: optional sign
then digits, `None` (`ValueError`) otherwise. -/
def parseNatAux : List Char → Nat → Option Nat
  | [], acc => some acc
  | c :: cs, acc =>
    if c.isDigit then parseNatAux cs (acc * 10 + (c.toNat - '0'.toNat))
    else none

/-- Python `int(s)` for decimal strings, modelling the `ValueError` on
malformed input as `none`. -/
def py_int (s : String) : Option Int :=
  match (pyStrip s).toList with
  | [] => none
  | '+' :: cs =>
    if cs.isEmpty then none else (parseNatAux cs 0).map Int.ofNat
  | '-' :: cs =>
    if cs.isEmpty then none
    else (parseNatAux cs 0).map (fun m => -(m : Int))
  | cs => (parseNatAux cs 0).map Int.ofNat

/-- `get_to_generate_issues` (`blog_generator.py` lines 324-341): with
a truthy `issue_number`, resolve it (`int()` then `repo.get_issue`,
modelled as a lookup over the materialized issue universe) and return
the single issue, or `[]` when either step fails; otherwise return the
full collection. -/
def get_to_generate_issues : List Issue → Option String → List Issue
  | all_issues, none => all_issues
  | all_issues, some s =>
    if s == "" then all_issues
    else
      match py_int s with
      | none => []
      | some n =>
        match all_issues.find? (fun i => ((i.number : Int) == n)) with
        | some issue => [issue]
        | none => []

/-- C9: with a requested issue number, selection returns the
one-element list holding the issue with that number, or the empty
list when parsing or resolution fails (the failure is absorbed, never
propagated: the function is total); with no requested number (or the
empty string) the full collection is returned unchanged. -/
theorem c9_issue_selection (all_issues : List Issue) (s : String)
    (n : Int) (issue : Issue) :
    get_to_generate_issues all_issues none = all_issues
    ∧ get_to_generate_issues all_issues (some "") = all_issues
    ∧ (py_int s = some n →
        all_issues.find? (fun i => ((i.number : Int) == n)) = some issue →
        get_to_generate_issues all_issues (some s) = [issue]
          ∧ (issue.number : Int) = n)
    ∧ (py_int s = some n →
        all_issues.find? (fun i => ((i.number : Int) == n)) = none →
        get_to_generate_issues all_issues (some s) = [])
    ∧ (s ≠ "" → py_int s = none →
        get_to_generate_issues all_issues (some s) = []) := by
  have hsne : py_int s = some n → (s == "") = false := by
    intro h
    by_cases hs : s = ""
    · rw [hs] at h
      exact Option.noConfusion h
    · simp [hs]
  refine ⟨rfl, rfl, ?_, ?_, ?_⟩
  · intro h hfind
    constructor
    · simp only [get_to_generate_issues]
      rw [hsne h]
      simp only [Bool.false_eq_true, if_false]
      rw [h]
      show (match List.find? (fun i => ((i.number : Int) == n)) all_issues
          with
        | some issue => [issue]
        | none => []) = [issue]
      rw [hfind]
    · have := List.find?_some hfind
      simpa using this
  · intro h hfind
    simp only [get_to_generate_issues]
    rw [hsne h]
    simp only [Bool.false_eq_true, if_false]
    rw [h]
    show (match List.find? (fun i => ((i.number : Int) == n)) all_issues
        with
      | some issue => [issue]
      | none => []) = []
    rw [hfind]
  · intro hs h
    simp only [get_to_generate_issues]
    rw [show (s == "") = false by simp [hs]]
    simp only [Bool.false_eq_true, if_false]
    rw [h]

/-- C9 witness: hit, number miss and parse failure at concrete
inputs, via the theorem. -/
theorem c9_issue_selection_witness :
    get_to_generate_issues [testIssue 7 "me" none] (some "7")
      = [testIssue 7 "me" none]
    ∧ get_to_generate_issues [testIssue 7 "me" none] (some "8") = []
    ∧ get_to_generate_issues [testIssue 7 "me" none] (some "x") = [] :=
  ⟨((c9_issue_selection [testIssue 7 "me" none] "7" 7
      (testIssue 7 "me" none)).2.2.1 (by decide) (by decide)).1,
   (c9_issue_selection [testIssue 7 "me" none] "8" 8
      (testIssue 7 "me" none)).2.2.2.1 (by decide) (by decide),
   (c9_issue_selection [testIssue 7 "me" none] "x" 0
      (testIssue 7 "me" none)).2.2.2.2 (by decide) (by decide)⟩

end Blog
